import Mathlib

/-!
# Verification of the sample-retrieval CLI core

A shallow embedding, in Lean 4, of the retrieval strategy engine of the
`spfx-sample` command-line tool: sample-selector normalization, the
version-control tool probe (`parseGitVersion`, `versionGte`, `ensureGit`),
the strategy selector and top-level `get` command handler, the remote
tree/content fetch error classification, the counting semaphore bounding
concurrent downloads, and the project identity rewriter
(`renameSpfxProject` / `postProcessProject`).

JavaScript strings are modelled as `List Char` (`Str`).  Asynchronous
filesystem/network/subprocess activity is modelled by explicit effect
traces and by environment records describing what the outside world would
answer (whether `git --version` runs and what it prints, whether the
destination directory exists and is non-empty, what an HTTP response
carries).  Fallible operations return `Except`.
-/

namespace SpfxSample

/-- JavaScript strings, modelled as lists of characters. -/
abbrev Str := List Char

/-- Coerce a Lean string literal to the `Str` model. -/
def str (s : String) : Str := s.toList

/-- Whitespace recognized by JavaScript `String.prototype.trim` (ASCII part,
which covers every string the tool manipulates). -/
def isJsWhitespace (c : Char) : Bool :=
  c = ' ' || c = '\t' || c = '\n' || c = '\r' || c = '\x0b' || c = '\x0c'

/-- JavaScript `String.prototype.trim`: drop leading and trailing whitespace. -/
def jsTrim (s : Str) : Str :=
  ((s.dropWhile isJsWhitespace).reverse.dropWhile isJsWhitespace).reverse

/-- `sample.replaceAll("\\", "/")`: single-character replacement of every
backslash by a forward slash. -/
def slashify (s : Str) : Str :=
  s.map (fun c => if c = '\\' then '/' else c)

/-- `normalizeSampleArg` from the CLI source: slashify, trim, then strip one
leading `samples/` prefix (`s.slice("samples/".length)`). -/
def normalizeSampleArg (sample : Str) : Str :=
  let s := jsTrim (slashify sample)
  if (str "samples/").isPrefixOf s then s.drop (str "samples/").length else s

lemma mem_slashify {c : Char} {s : Str} (h : c ∈ slashify s) : c ≠ '\\' := by
  unfold slashify at h
  obtain ⟨a, -, ha⟩ := List.mem_map.mp h
  by_cases hb : a = '\\'
  · simp [hb] at ha
    simp [← ha]
  · simp [hb] at ha
    simp [← ha]
    exact hb

lemma mem_jsTrim {c : Char} {s : Str} (h : c ∈ jsTrim s) : c ∈ s := by
  unfold jsTrim at h
  rw [List.mem_reverse] at h
  have h1 := (List.dropWhile_sublist (l := (s.dropWhile isJsWhitespace).reverse)
    (p := isJsWhitespace)).subset h
  rw [List.mem_reverse] at h1
  exact (List.dropWhile_sublist (l := s) (p := isJsWhitespace)).subset h1

lemma slashify_eq_self {s : Str} (h : ∀ c ∈ s, c ≠ '\\') : slashify s = s := by
  induction s with
  | nil => rfl
  | cons a t ih =>
      have ha := h a (by simp)
      simp only [slashify, List.map_cons, if_neg ha]
      have := ih (fun c hc => h c (by simp [hc]))
      simpa [slashify] using this

lemma normalizeSampleArg_no_backslash {s : Str} {c : Char}
    (h : c ∈ normalizeSampleArg s) : c ≠ '\\' := by
  simp only [normalizeSampleArg] at h
  split at h
  · exact mem_slashify (mem_jsTrim (List.drop_subset _ _ h))
  · exact mem_slashify (mem_jsTrim h)

/-- C6 amended: `normalizeSampleArg` converts all backslashes to forward
slashes and strips at most one leading `samples/` segment, but it is *not*
idempotent in general; it is idempotent for every input whose normalized
form is already trimmed and does not itself start with `samples/`. -/
theorem normalizeSampleArg_strips_once_conditionally_idempotent (s : Str) :
    (∀ c ∈ normalizeSampleArg s, c ≠ '\\') ∧
    (normalizeSampleArg s = jsTrim (slashify s) ∨
      ((str "samples/").isPrefixOf (jsTrim (slashify s)) = true ∧
        normalizeSampleArg s = (jsTrim (slashify s)).drop (str "samples/").length)) ∧
    (jsTrim (normalizeSampleArg s) = normalizeSampleArg s →
      (str "samples/").isPrefixOf (normalizeSampleArg s) = false →
      normalizeSampleArg (normalizeSampleArg s) = normalizeSampleArg s) := by
  refine ⟨fun c hc => normalizeSampleArg_no_backslash hc, ?_, ?_⟩
  · by_cases h : (str "samples/").isPrefixOf (jsTrim (slashify s)) = true
    · exact Or.inr ⟨h, by simp only [normalizeSampleArg, h, if_true]⟩
    · exact Or.inl (by simp only [normalizeSampleArg, h, if_false]; simp at h; simp [h])
  · have hnb : ∀ c ∈ normalizeSampleArg s, c ≠ '\\' :=
      fun c hc => normalizeSampleArg_no_backslash hc
    revert hnb
    generalize normalizeSampleArg s = y
    intro hnb h1 h2
    simp only [normalizeSampleArg]
    rw [slashify_eq_self hnb, h1, h2]
    simp

/-- C6 counterexample: the claimed unconditional idempotence fails; a selector
that still starts with `samples/` after one strip gets stripped again on a
second application. -/
theorem normalizeSampleArg_not_idempotent :
    normalizeSampleArg (normalizeSampleArg (str "samples/samples/foo")) ≠
      normalizeSampleArg (str "samples/samples/foo") := by decide

/-- C6 witness: the conditional-idempotence part applied at the concrete
selector "react-hello-world". -/
theorem normalizeSampleArg_idempotent_witness :
    normalizeSampleArg (normalizeSampleArg (str "react-hello-world")) =
      normalizeSampleArg (str "react-hello-world") :=
  (normalizeSampleArg_strips_once_conditionally_idempotent
    (str "react-hello-world")).2.2 (by decide) (by decide)

/-- C7 amended: the normalized selector is empty exactly when the trimmed,
slash-converted input is empty or is exactly the literal `samples/`; it is
non-empty for every other input (the code never checks this, so "never
empty" does not hold unconditionally). -/
theorem normalizeSampleArg_empty_iff (s : Str) :
    normalizeSampleArg s = [] ↔
      (jsTrim (slashify s) = [] ∨ jsTrim (slashify s) = str "samples/") := by
  simp only [normalizeSampleArg]
  by_cases h : (str "samples/").isPrefixOf (jsTrim (slashify s)) = true
  · rw [if_pos h]
    obtain ⟨rest, hr⟩ := List.isPrefixOf_iff_prefix.mp h
    constructor
    · intro hd
      rw [← hr, List.drop_left] at hd
      right
      rw [← hr, hd, List.append_nil]
    · intro hd
      rcases hd with hd | hd
      · rw [hd]; simp
      · rw [hd]; simp
  · rw [if_neg h]
    constructor
    · intro hd; exact Or.inl hd
    · intro hd
      rcases hd with hd | hd
      · exact hd
      · exact absurd (by rw [hd]; exact List.isPrefixOf_iff_prefix.mpr List.prefix_rfl) h

/-- C7 counterexample: the claim "never empty after normalization" fails at
the concrete input `samples/`, which normalizes to the empty string. -/
theorem normalizeSampleArg_empty_on_bare_prefix :
    normalizeSampleArg (str "samples/") = [] := by decide

/-! ## Versioned tool probe -/

/-- A parsed three-part `git` version. -/
structure GitVersion where
  major : Nat
  minor : Nat
  patch : Nat
  deriving DecidableEq, Repr

/-- Case-insensitive character comparison (for the `/i` regex flag). -/
def ciEq (a b : Char) : Bool := a.toLower = b.toLower

/-- Consume a case-insensitive literal pattern from the front of a string,
returning the remainder on success. -/
def ciPrefixRest : Str → Str → Option Str
  | [], s => some s
  | _ :: _, [] => none
  | p :: ps, c :: cs => if ciEq p c then ciPrefixRest ps cs else none

/-- A maximal run of decimal digits (`\d+` is greedy) and the remainder. -/
def digitRun (s : Str) : Str × Str := (s.takeWhile Char.isDigit, s.dropWhile Char.isDigit)

/-- Decimal digits to a number (`Number(...)` on a digit string). -/
def digitsToNat (ds : Str) : Nat := ds.foldl (fun n c => 10 * n + (c.toNat - '0'.toNat)) 0

/-- Match `(\d+)\.(\d+)\.(\d+)` at the start of the string. -/
def matchThreePart (s : Str) : Option GitVersion :=
  let (d1, r1) := digitRun s
  if d1 = [] then none else
  match r1 with
  | '.' :: r2 =>
    let (d2, r3) := digitRun r2
    if d2 = [] then none else
    match r3 with
    | '.' :: r4 =>
      let (d3, _) := digitRun r4
      if d3 = [] then none
      else some ⟨digitsToNat d1, digitsToNat d2, digitsToNat d3⟩
    | _ => none
  | _ => none

/-- Match the whole pattern `git version (\d+)\.(\d+)\.(\d+)` (case
insensitive) at the start of the string. -/
def matchGitVersionAt (s : Str) : Option GitVersion :=
  match ciPrefixRest (str "git version ") s with
  | none => none
  | some rest => matchThreePart rest

/-- `parseGitVersion` from the CLI source: first match, scanning left to
right, of the regular expression `/git version (\d+)\.(\d+)\.(\d+)/i`;
`none` when the output does not announce a version. -/
def parseGitVersion : Str → Option GitVersion
  | [] => none
  | c :: rest =>
    match matchGitVersionAt (c :: rest) with
    | some v => some v
    | none => parseGitVersion rest

/-- `versionGte` from the CLI source: compare major, then minor, then
patch, with greater-or-equal semantics. -/
def versionGte (v min : GitVersion) : Bool :=
  if v.major ≠ min.major then decide (v.major > min.major)
  else if v.minor ≠ min.minor then decide (v.minor > min.minor)
  else decide (v.patch ≥ min.patch)

/-- Strict lexicographic order on version triples (the specification's
reading of "below the fixed minimum"). -/
def versionLexLt (v w : GitVersion) : Prop :=
  v.major < w.major ∨
    (v.major = w.major ∧
      (v.minor < w.minor ∨ (v.minor = w.minor ∧ v.patch < w.patch)))

instance (v w : GitVersion) : Decidable (versionLexLt v w) := by
  unfold versionLexLt; infer_instance

lemma versionGte_iff_not_lexLt (v w : GitVersion) :
    versionGte v w = true ↔ ¬ versionLexLt v w := by
  unfold versionGte versionLexLt
  by_cases h1 : v.major = w.major <;> by_cases h2 : v.minor = w.minor <;>
    simp [h1, h2] <;> omega

/-- Minimum adequate tool version: sparse-checkout cone mode needs
`git >= 2.25.0`. -/
def minGitVersion : GitVersion := ⟨2, 25, 0⟩

/-- Failure taxonomy of the retrieval front door. -/
inductive CliError
  | toolNotFound
  | toolTooOld
  | configError
  | destConflict
  deriving DecidableEq, Repr

/-- What the outside world answers to the tool probe: whether spawning
`git --version` succeeds, and what it prints on stdout when it does. -/
structure GitEnv where
  gitRuns : Bool
  gitStdout : Str
  deriving DecidableEq, Repr

/-- `ensureGit` from the CLI source: spawn `git --version` (failure to spawn
is `ToolNotFound`); parse the trimmed stdout; an unparsable announcement is
accepted (fail open); a parsed version below the minimum is `ToolTooOld`. -/
def ensureGit (env : GitEnv) : Except CliError Unit :=
  if env.gitRuns then
    match parseGitVersion (jsTrim env.gitStdout) with
    | none => Except.ok ()
    | some v =>
        if versionGte v minGitVersion then Except.ok ()
        else Except.error CliError.toolTooOld
  else Except.error CliError.toolNotFound

/-- `isGitAvailable` from the CLI source: true exactly when the version
command can be spawned; never throws. -/
def isGitAvailable (env : GitEnv) : Bool := env.gitRuns

/-- C9: the adequacy check fails `ToolNotFound` exactly when the binary
cannot be invoked; when the output parses as a three-part version it fails
`ToolTooOld` exactly when that version is lexicographically below
`2.25.0`; an unparsable version announcement is accepted (fail open). -/
theorem ensureGit_failure_classification (env : GitEnv) :
    (ensureGit env = Except.error CliError.toolNotFound ↔ env.gitRuns = false) ∧
    (∀ v, env.gitRuns = true →
      parseGitVersion (jsTrim env.gitStdout) = some v →
      (ensureGit env = Except.error CliError.toolTooOld ↔ versionLexLt v minGitVersion)) ∧
    (env.gitRuns = true → parseGitVersion (jsTrim env.gitStdout) = none →
      ensureGit env = Except.ok ()) := by
  refine ⟨?_, ?_, ?_⟩
  · unfold ensureGit
    cases hg : env.gitRuns
    · simp
    · simp only [if_true]
      constructor
      · intro h
        exfalso
        rcases hp : parseGitVersion (jsTrim env.gitStdout) with _ | v
        · rw [hp] at h; simp at h
        · rw [hp] at h
          by_cases hv : versionGte v minGitVersion = true
          · simp [hv] at h
          · simp [hv] at h
      · intro h; simp at h
  · intro v hg hp
    unfold ensureGit
    rw [hg, if_pos rfl, hp]
    by_cases hv : versionGte v minGitVersion = true
    · have := (versionGte_iff_not_lexLt v minGitVersion).mp hv
      simp [hv, this]
    · have : versionLexLt v minGitVersion := by
        by_contra hc
        exact hv ((versionGte_iff_not_lexLt v minGitVersion).mpr hc)
      simp [hv, this]
  · intro hg hp
    unfold ensureGit
    rw [hg, if_pos rfl, hp]

/-- C9 witness: the three branches of the classification at concrete probe
environments (no git; `git version 2.24.1` which is too old; unparsable
output). -/
theorem ensureGit_failure_classification_witness :
    ensureGit ⟨false, str ""⟩ = Except.error CliError.toolNotFound ∧
    ensureGit ⟨true, str "git version 2.24.1 (Apple Git)"⟩ =
      Except.error CliError.toolTooOld ∧
    ensureGit ⟨true, str "no announcement here"⟩ = Except.ok () :=
  ⟨(ensureGit_failure_classification ⟨false, str ""⟩).1.mpr rfl,
   ((ensureGit_failure_classification _).2.1 ⟨2, 24, 1⟩ rfl (by decide)).mpr
     (by decide),
   (ensureGit_failure_classification _).2.2 rfl (by decide)⟩

/-! ## Retrieval strategy selector and the `get` command handler

The handler's asynchronous effects (subprocess spawns, network requests,
destination-directory mutations) are recorded in an ordered trace, and the
environment record carries what the probed world would answer. -/

/-- Requested retrieval method (`--method auto|git|api`). -/
inductive Method
  | auto
  | git
  | api
  deriving DecidableEq, Repr

/-- Retrieval mode (`--mode extract|repo`). -/
inductive Mode
  | extract
  | repo
  deriving DecidableEq, Repr

/-- The `auto => gitAvailable ? git : api` resolution from the handler:
`chosen = method === "auto" ? (gitAvailable ? "git" : "api") : method`. -/
def resolveMethod (m : Method) (gitAvailable : Bool) : Method :=
  match m with
  | Method.auto => if gitAvailable then Method.git else Method.api
  | m => m

/-- The `get` command inputs that drive the strategy and destination
decisions. -/
structure GetOptions where
  method : Method
  mode : Mode
  force : Bool
  deriving DecidableEq, Repr

/-- The world as the handler observes it: the git probe and the resolved
destination directory's state. -/
structure GetEnv where
  git : GitEnv
  destExists : Bool
  destNonEmpty : Bool
  deriving DecidableEq, Repr

/-- Side effects the handler can perform, in order of occurrence. -/
inductive Effect
  | probeGitSubprocess
  | versionCheckSubprocess
  | removeDest
  | mkdirDest
  | networkDownload
  | gitRetrievalSubprocess
  deriving DecidableEq, Repr

/-- Which retrieval pipeline a successful prefix of the handler commits to. -/
inductive RetrievalPlan
  | apiExtract
  | gitExtract
  | gitRepo
  deriving DecidableEq, Repr

/-- `getCommandHandler` from the CLI source, up to the point where a
retrieval pipeline takes over: probe git availability, resolve the method,
validate the git version when git was chosen, reject `api`+`repo`, then
check or clear the destination, and finally dispatch.  The first component
is the ordered effect trace, the second the outcome. -/
def getCommandHandler (o : GetOptions) (env : GetEnv) :
    List Effect × Except CliError RetrievalPlan :=
  let chosen := resolveMethod o.method (isGitAvailable env.git)
  let t0 : List Effect := [Effect.probeGitSubprocess]
  let checked : List Effect × Except CliError Unit :=
    if chosen = Method.git
    then (t0 ++ [Effect.versionCheckSubprocess], ensureGit env.git)
    else (t0, Except.ok ())
  match checked with
  | (t1, Except.error e) => (t1, Except.error e)
  | (t1, Except.ok _) =>
    if chosen = Method.api ∧ o.mode = Mode.repo then
      (t1, Except.error CliError.configError)
    else if env.destExists = true ∧ o.force = false ∧ env.destNonEmpty = true then
      (t1, Except.error CliError.destConflict)
    else
      let t2 := if env.destExists = true ∧ o.force = true
        then t1 ++ [Effect.removeDest] else t1
      match chosen, o.mode with
      | Method.api, _ =>
          (t2 ++ [Effect.mkdirDest, Effect.networkDownload],
            Except.ok RetrievalPlan.apiExtract)
      | Method.git, Mode.extract =>
          (t2 ++ [Effect.gitRetrievalSubprocess], Except.ok RetrievalPlan.gitExtract)
      | Method.git, Mode.repo =>
          (t2 ++ [Effect.mkdirDest, Effect.gitRetrievalSubprocess],
            Except.ok RetrievalPlan.gitRepo)
      | Method.auto, _ =>
          (t2, Except.error CliError.configError)

instance {ε α : Type} [DecidableEq ε] [DecidableEq α] :
    DecidableEq (Except ε α) := fun x y =>
  match x, y with
  | Except.ok a, Except.ok b =>
      if h : a = b then isTrue (by rw [h])
      else isFalse (by intro hc; cases hc; exact h rfl)
  | Except.error a, Except.error b =>
      if h : a = b then isTrue (by rw [h])
      else isFalse (by intro hc; cases hc; exact h rfl)
  | Except.ok _, Except.error _ => isFalse (by intro hc; cases hc)
  | Except.error _, Except.ok _ => isFalse (by intro hc; cases hc)

lemma resolveMethod_ne_auto (m : Method) (b : Bool) :
    resolveMethod m b ≠ Method.auto := by
  cases m <;> cases b <;> simp [resolveMethod]

lemma ensureGit_outcomes (env : GitEnv) :
    ensureGit env = Except.ok () ∨
    ensureGit env = Except.error CliError.toolNotFound ∨
    ensureGit env = Except.error CliError.toolTooOld := by
  unfold ensureGit
  cases env.gitRuns
  · simp
  · simp only [if_true]
    rcases parseGitVersion (jsTrim env.gitStdout) with _ | v
    · simp
    · by_cases hv : versionGte v minGitVersion = true <;> simp [hv]

/-- C1 counterexample: with git available but announcing version 2.24.0
(below the 2.25.0 minimum), Auto still resolves to the version-control
strategy, and the run fails with `ToolTooOld` instead of falling back to
the remote API. -/
theorem autoResolution_ignores_adequacy :
    resolveMethod Method.auto
        (isGitAvailable ⟨true, str "git version 2.24.0"⟩) = Method.git ∧
    (getCommandHandler ⟨Method.auto, Mode.extract, false⟩
        ⟨⟨true, str "git version 2.24.0"⟩, false, false⟩).2 =
      Except.error CliError.toolTooOld := by decide

/-- C1 amended: Auto resolves to the version-control strategy exactly when
the tool is available — adequacy is not consulted during resolution — and
an available-but-inadequate tool therefore makes the run fail with
`ToolTooOld` rather than resolving to the remote API. -/
theorem autoResolution_availability_only (o : GetOptions) (env : GetEnv) :
    (resolveMethod Method.auto (isGitAvailable env.git) = Method.git ↔
      env.git.gitRuns = true) ∧
    (o.method = Method.auto → env.git.gitRuns = true →
      ensureGit env.git = Except.error CliError.toolTooOld →
      (getCommandHandler o env).2 = Except.error CliError.toolTooOld) := by
  constructor
  · cases hg : env.git.gitRuns <;> simp [resolveMethod, isGitAvailable, hg]
  · intro hm hg hE
    simp [getCommandHandler, resolveMethod, isGitAvailable, hm, hg, hE]

/-- C1 witness: the amended behavior at a probe announcing git 1.9.5. -/
theorem autoResolution_availability_only_witness :
    (getCommandHandler ⟨Method.auto, Mode.repo, false⟩
        ⟨⟨true, str "git version 1.9.5"⟩, true, true⟩).2 =
      Except.error CliError.toolTooOld :=
  (autoResolution_availability_only ⟨Method.auto, Mode.repo, false⟩
      ⟨⟨true, str "git version 1.9.5"⟩, true, true⟩).2 rfl rfl (by decide)

/-- C2 counterexample: a requested method of Auto (not RemoteApi) with mode
`repo` also raises `ConfigurationError` when the tool is unavailable, and
the availability-probe subprocess has already run by then. -/
theorem configError_beyond_api_method :
    Method.auto ≠ Method.api ∧
    getCommandHandler ⟨Method.auto, Mode.repo, false⟩ ⟨⟨false, str ""⟩, false, false⟩ =
      ([Effect.probeGitSubprocess], Except.error CliError.configError) := by decide

/-- C2 amended: `ConfigurationError` is raised exactly when the *resolved*
method is the remote API and the mode is `repo` (so also for Auto
resolving to the API), and on that path the only prior effect is the
tool-availability probe subprocess — no network request, no destination
mutation, no retrieval subprocess. -/
theorem configError_iff_resolved_api_repo (o : GetOptions) (env : GetEnv) :
    ((getCommandHandler o env).2 = Except.error CliError.configError ↔
      resolveMethod o.method (isGitAvailable env.git) = Method.api ∧
        o.mode = Mode.repo) ∧
    ((getCommandHandler o env).2 = Except.error CliError.configError →
      (getCommandHandler o env).1 = [Effect.probeGitSubprocess]) := by
  rcases o with ⟨m, mo, f⟩
  cases m <;> cases mo <;> cases hg : env.git.gitRuns <;>
    rcases ensureGit_outcomes env.git with h | h | h <;>
      simp [getCommandHandler, resolveMethod, isGitAvailable, hg, h] <;>
      first
        | decide
        | simp_all
        | (split <;> first | decide | simp_all)

/-- C2 witness: the trace part at the explicit (RemoteApi, repo) input. -/
theorem configError_iff_resolved_api_repo_witness :
    (getCommandHandler ⟨Method.api, Mode.repo, false⟩
        ⟨⟨true, str "git version 2.30.0"⟩, false, false⟩).1 =
      [Effect.probeGitSubprocess] :=
  (configError_iff_resolved_api_repo ⟨Method.api, Mode.repo, false⟩
      ⟨⟨true, str "git version 2.30.0"⟩, false, false⟩).2 (by decide)

/-- C3 counterexample: with a non-empty existing destination and no
overwrite flag, (RemoteApi, repo) fails with `ConfigurationError` rather
than `DestinationConflict`; and when `DestinationConflict` is raised, the
availability-probe subprocess has already started. -/
theorem destConflict_not_first_failure :
    (getCommandHandler ⟨Method.api, Mode.repo, false⟩
        ⟨⟨false, str ""⟩, true, true⟩).2 = Except.error CliError.configError ∧
    getCommandHandler ⟨Method.api, Mode.extract, false⟩ ⟨⟨false, str ""⟩, true, true⟩ =
      ([Effect.probeGitSubprocess], Except.error CliError.destConflict) := by decide

/-- C3 amended: when the destination exists, is non-empty, overwrite is not
set, and the earlier gates pass (the resolved method is not the
incompatible API+repo combination, and the tool check succeeds when git is
chosen), the handler fails with `DestinationConflict`, and its trace
contains no network request, no retrieval subprocess, and no filesystem
mutation — only the availability probe (and version check) subprocesses
precede the failure. -/
theorem destConflict_before_network_and_retrieval (o : GetOptions) (env : GetEnv)
    (hex : env.destExists = true) (hne : env.destNonEmpty = true)
    (hf : o.force = false)
    (hapi : resolveMethod o.method (isGitAvailable env.git) = Method.api →
      o.mode = Mode.extract)
    (hgit : resolveMethod o.method (isGitAvailable env.git) = Method.git →
      ensureGit env.git = Except.ok ()) :
    (getCommandHandler o env).2 = Except.error CliError.destConflict ∧
    Effect.networkDownload ∉ (getCommandHandler o env).1 ∧
    Effect.gitRetrievalSubprocess ∉ (getCommandHandler o env).1 ∧
    Effect.removeDest ∉ (getCommandHandler o env).1 ∧
    Effect.mkdirDest ∉ (getCommandHandler o env).1 := by
  rcases o with ⟨m, mo, f⟩
  simp only at hf hapi hgit ⊢
  subst hf
  rcases hch : resolveMethod m (isGitAvailable env.git) with _ | _ | _
  · exact absurd hch (resolveMethod_ne_auto m _)
  · have hok := hgit hch
    simp [getCommandHandler, hch, hok, hex, hne]
  · have hmo := hapi hch
    subst hmo
    simp [getCommandHandler, hch, hex, hne]

/-- C3 witness: the amended behavior at the explicit (RemoteApi, extract)
input over a non-empty destination. -/
theorem destConflict_before_network_witness :
    (getCommandHandler ⟨Method.api, Mode.extract, false⟩
        ⟨⟨false, str ""⟩, true, true⟩).2 = Except.error CliError.destConflict ∧
    Effect.networkDownload ∉
      (getCommandHandler ⟨Method.api, Mode.extract, false⟩
        ⟨⟨false, str ""⟩, true, true⟩).1 :=
  ⟨(destConflict_before_network_and_retrieval ⟨Method.api, Mode.extract, false⟩
      ⟨⟨false, str ""⟩, true, true⟩ rfl rfl rfl (fun _ => rfl) (by decide)).1,
   (destConflict_before_network_and_retrieval ⟨Method.api, Mode.extract, false⟩
      ⟨⟨false, str ""⟩, true, true⟩ rfl rfl rfl (fun _ => rfl) (by decide)).2.1⟩

/-! ## Project identity rewriter -/

/-- Non-overlapping, left-to-right global replacement of a literal pattern,
fuelled by the length of the subject (each step consumes at least one
character, so the fuel suffices). -/
def replaceListFuel (pat rep : Str) : Nat → Str → Str
  | 0, s => s
  | _ + 1, [] => []
  | fuel + 1, c :: rest =>
    if pat.isPrefixOf (c :: rest) then
      rep ++ replaceListFuel pat rep fuel (List.drop (pat.length - 1) rest)
    else
      c :: replaceListFuel pat rep fuel rest

/-- JavaScript `s.replace(new RegExp(escapeRegExp(pat), "g"), rep)` for a
non-empty literal pattern without `$` escapes in the replacement: global
literal substitution.  (Call sites in the source guard on a truthy — hence
non-empty — previous name.) -/
def replaceList (pat rep s : Str) : Str :=
  if pat.isEmpty then s else replaceListFuel pat rep s.length s

/-- Does the pattern occur as a contiguous substring? -/
def containsSeq (pat : Str) : Str → Bool
  | [] => pat.isEmpty
  | c :: rest => pat.isPrefixOf (c :: rest) || containsSeq pat rest

/-- Hex digit, both cases (the regex runs with the `/i` flag). -/
def isHexDigit (c : Char) : Bool :=
  c.isDigit || ('a' ≤ c && c ≤ 'f') || ('A' ≤ c && c ≤ 'F')

/-- Consume exactly `n` hex digits. -/
def hexRun : Nat → Str → Option Str
  | 0, s => some s
  | _ + 1, [] => none
  | n + 1, c :: cs => if isHexDigit c then hexRun n cs else none

/-- Consume one character drawn from the allowed set. -/
def charClass (allowed : Str) : Str → Option Str
  | [] => none
  | c :: cs => if allowed.contains c then some cs else none

/-- `isGuid` from the CLI source: the anchored regular expression
`[0-9a-f]{8}-[0-9a-f]{4}-[1-5][0-9a-f]{3}-[89ab][0-9a-f]{3}-[0-9a-f]{12}`,
case-insensitive. -/
def isGuid (s : Str) : Bool :=
  (do
    let s ← hexRun 8 s
    let s ← charClass (str "-") s
    let s ← hexRun 4 s
    let s ← charClass (str "-") s
    let s ← charClass (str "12345") s
    let s ← hexRun 3 s
    let s ← charClass (str "-") s
    let s ← charClass (str "89abAB") s
    let s ← hexRun 3 s
    let s ← charClass (str "-") s
    let s ← hexRun 12 s
    if s.isEmpty then some () else none).isSome

/-- JavaScript truthiness for an optional string value: present and
non-empty. -/
def truthyStr : Option Str → Bool
  | none => false
  | some s => !s.isEmpty

/-- Replace an optional string field only when it currently holds a string
(`typeof f === "string"`). -/
def setIfString (field newVal : Option Str) : Option Str :=
  if field.isSome then newVal else field

/-- `package.json` as the rewriter sees it. -/
structure PackageJson where
  name : Option Str
  deriving DecidableEq, Repr

/-- The `@microsoft/generator-sharepoint` object of `.yo-rc.json`. -/
structure YoGen where
  libraryName : Option Str
  solutionName : Option Str
  libraryId : Option Str
  deriving DecidableEq, Repr

/-- The `solution` object of `config/package-solution.json`. -/
structure PsSolution where
  name : Option Str
  id : Option Str
  deriving DecidableEq, Repr

/-- `config/deploy-azure-storage.json` as the rewriter sees it. -/
structure DazConfig where
  container : Option Str
  deriving DecidableEq, Repr

/-- The fixed set of well-known project files.  An outer `none` means the
file is missing or unparsable (silently skipped); for `.yo-rc.json` and
`package-solution.json` the inner option is the presence of the generator
key / `solution` object. -/
structure Project where
  pkg : Option PackageJson
  yo : Option (Option YoGen)
  ps : Option (Option PsSolution)
  daz : Option DazConfig
  readme : Option Str
  deriving DecidableEq, Repr

/-- Files written back, in the order the source writes them. -/
inductive FileId
  | pkgJson
  | yoRcJson
  | packageSolutionJson
  | deployAzureStorageJson
  | readmeMd
  deriving DecidableEq, Repr

/-- `renameSpfxProject` from the CLI source: per-file rewrite policy.
Returns the ordered list of files written and the resulting project. -/
def renameSpfxProject (proj : Project) (rename : Option Str) (newId : Option Str) :
    List FileId × Project :=
  let oldName : Option Str := proj.pkg.bind (fun p => p.name)
  let pkgStep : List FileId × Option PackageJson :=
    match proj.pkg with
    | some p =>
        if truthyStr rename
        then ([FileId.pkgJson], some { p with name := rename })
        else ([], some p)
    | none => ([], none)
  let yoStep : List FileId × Option (Option YoGen) :=
    match proj.yo with
    | some (some gen) =>
        let gen1 :=
          if truthyStr rename then
            { gen with
              libraryName := setIfString gen.libraryName rename,
              solutionName := setIfString gen.solutionName rename }
          else gen
        let gen2 :=
          if truthyStr newId ∧ gen1.libraryId.isSome then
            { gen1 with libraryId := newId }
          else gen1
        ([FileId.yoRcJson], some (some gen2))
    | other => ([], other)
  let psStep : List FileId × Option (Option PsSolution) :=
    match proj.ps with
    | some (some sol) =>
        let sol1 :=
          if truthyStr rename ∧ sol.name.isSome ∧ truthyStr oldName then
            { sol with
              name := sol.name.map
                (fun n => replaceList (oldName.getD []) (rename.getD []) n) }
          else sol
        let sol2 :=
          if truthyStr newId ∧ sol1.id.isSome then { sol1 with id := newId } else sol1
        ([FileId.packageSolutionJson], some (some sol2))
    | other => ([], other)
  let dazStep : List FileId × Option DazConfig :=
    match proj.daz with
    | some d =>
        if truthyStr rename ∧ d.container.isSome
        then ([FileId.deployAzureStorageJson], some { d with container := rename })
        else ([], some d)
    | none => ([], none)
  let readmeStep : List FileId × Option Str :=
    match proj.readme with
    | some txt =>
        if truthyStr rename ∧ truthyStr oldName then
          let updated := replaceList (oldName.getD []) (rename.getD []) txt
          if updated ≠ txt then ([FileId.readmeMd], some updated) else ([], some txt)
        else ([], some txt)
    | none => ([], none)
  (pkgStep.1 ++ yoStep.1 ++ psStep.1 ++ dazStep.1 ++ readmeStep.1,
    ⟨pkgStep.2, yoStep.2, psStep.2, dazStep.2, readmeStep.2⟩)

/-- How the `--newid` flag arrived: absent, valueless (auto-generate), or
with a caller-supplied value. -/
inductive NewIdOption
  | absent
  | flagOnly
  | value (v : Str)
  deriving DecidableEq, Repr

/-- Failure of the identity rewrite. -/
inductive RewriteError
  | invalidIdentifier
  deriving DecidableEq, Repr

/-- `postProcessProject` from the CLI source: trim the rename, then handle
the identifier under the `if (options.newid)` *truthiness* gate — a
caller-supplied empty string is falsy and skips identifier processing
altogether (no validation, no error); a non-empty string is trimmed and
validated; the valueless flag consumes a generated identifier
(`generatedId` stands for the `randomUUID()` result).  Finally the
rewriter runs when there is anything to do. -/
def postProcessProject (rename : Option Str) (newid : NewIdOption)
    (generatedId : Str) (proj : Project) :
    List FileId × Except RewriteError Project :=
  let rename' := rename.map jsTrim
  let newIdRes : Except RewriteError (Option Str) :=
    match newid with
    | NewIdOption.value v =>
        if v.isEmpty then Except.ok none
        else
          let v' := jsTrim v
          if isGuid v' then Except.ok (some v')
          else Except.error RewriteError.invalidIdentifier
    | NewIdOption.flagOnly => Except.ok (some generatedId)
    | NewIdOption.absent => Except.ok none
  match newIdRes with
  | Except.error e => ([], Except.error e)
  | Except.ok newId =>
      if truthyStr rename' ∨ newId.isSome then
        let res := renameSpfxProject proj rename' newId
        (res.1, Except.ok res.2)
      else ([], Except.ok proj)

/-- The identity-rewrite scenario of the specification: a project named
`old-package-name` with matching generator fields, a decorated solution
name, a fixed identifier, and a README mentioning the name twice. -/
def demoProject : Project where
  pkg := some ⟨some (str "old-package-name")⟩
  yo := some (some ⟨some (str "old-package-name"), some (str "old-package-name"),
    some (str "93f3f2eb-32e9-4d26-85bc-6f390441be87")⟩)
  ps := some (some ⟨some (str "old-package-name Solution"),
    some (str "93f3f2eb-32e9-4d26-85bc-6f390441be87")⟩)
  daz := none
  readme := some (str "# old-package-name\n\nA demo of old-package-name.")

/-- C4: on the specification's scenario, renaming to `new-name` with a
fresh identifier sets the package name and both generator name fields
verbatim, both identifiers to the new value, rewrites the manifest name by
substring replacement (preserving the ` Solution` suffix), and replaces
every literal README occurrence, leaving none of the old name behind. -/
theorem renameScenario_rewrites_identity :
    postProcessProject (some (str "new-name"))
        (NewIdOption.value (str "8e4b1a2c-3d5f-4a6b-8c7d-9e0f1a2b3c4d"))
        (str "") demoProject =
      ([FileId.pkgJson, FileId.yoRcJson, FileId.packageSolutionJson, FileId.readmeMd],
        Except.ok
          ⟨some ⟨some (str "new-name")⟩,
           some (some ⟨some (str "new-name"), some (str "new-name"),
             some (str "8e4b1a2c-3d5f-4a6b-8c7d-9e0f1a2b3c4d")⟩),
           some (some ⟨some (str "new-name Solution"),
             some (str "8e4b1a2c-3d5f-4a6b-8c7d-9e0f1a2b3c4d")⟩),
           none,
           some (str "# new-name\n\nA demo of new-name.")⟩) ∧
    containsSeq (str "old-package-name") (str "# new-name\n\nA demo of new-name.") = false ∧
    containsSeq (str "new-name") (str "# new-name\n\nA demo of new-name.") = true := by
  decide

/-- C5 counterexample: a caller-supplied *empty* identifier value is falsy
under the source's `if (options.newid)` gate, so validation is skipped
entirely: the empty string fails UUID validation, yet no
`InvalidIdentifier` is raised, and with a rename requested the project
files are still written. -/
theorem emptyIdentifier_skips_validation :
    isGuid (jsTrim (str "")) = false ∧
    (postProcessProject (some (str "new-name")) (NewIdOption.value (str ""))
        (str "") demoProject).1 =
      [FileId.pkgJson, FileId.yoRcJson, FileId.packageSolutionJson, FileId.readmeMd] ∧
    (postProcessProject (some (str "new-name")) (NewIdOption.value (str ""))
        (str "") demoProject).2 ≠
      Except.error RewriteError.invalidIdentifier := by decide

/-- C5 amended: a *non-empty* supplied identifier whose trimmed value
fails GUID validation is rejected with `InvalidIdentifier` and no file is
written; a value passing validation is never rejected; a supplied empty
value is falsy, so identifier processing is skipped and the rewrite
behaves exactly as if no identifier had been requested. -/
theorem invalidIdentifier_rejected_before_writes
    (rename : Option Str) (v generatedId : Str) (proj : Project) :
    (v ≠ [] → isGuid (jsTrim v) = false →
      postProcessProject rename (NewIdOption.value v) generatedId proj =
        ([], Except.error RewriteError.invalidIdentifier)) ∧
    (isGuid (jsTrim v) = true →
      ∃ w p, postProcessProject rename (NewIdOption.value v) generatedId proj =
        (w, Except.ok p)) ∧
    (postProcessProject rename (NewIdOption.value []) generatedId proj =
      postProcessProject rename NewIdOption.absent generatedId proj) := by
  refine ⟨?_, ?_, ?_⟩
  · intro hv h
    have hne : v.isEmpty = false := by
      cases v with
      | nil => exact absurd rfl hv
      | cons c cs => rfl
    simp [postProcessProject, hne, h]
  · intro h
    have hv : v ≠ [] := by
      intro hv
      rw [hv] at h
      exact absurd h (by decide)
    have hne : v.isEmpty = false := by
      cases v with
      | nil => exact absurd rfl hv
      | cons c cs => rfl
    exact ⟨(renameSpfxProject proj (rename.map jsTrim) (some (jsTrim v))).1,
           (renameSpfxProject proj (rename.map jsTrim) (some (jsTrim v))).2,
           by simp [postProcessProject, hne, h]⟩
  · simp [postProcessProject]

/-- C5 witness: the non-empty `not-a-guid` is rejected with nothing
written, a well-formed identifier goes through, and the empty value
behaves as an absent one, at the concrete scenario project. -/
theorem invalidIdentifier_rejected_witness :
    postProcessProject (some (str "new-name")) (NewIdOption.value (str "not-a-guid"))
        (str "") demoProject =
      ([], Except.error RewriteError.invalidIdentifier) ∧
    (∃ w p, postProcessProject (some (str "new-name"))
        (NewIdOption.value (str "93f3f2eb-32e9-4d26-85bc-6f390441be87"))
        (str "") demoProject = (w, Except.ok p)) ∧
    postProcessProject (some (str "new-name")) (NewIdOption.value (str ""))
        (str "") demoProject =
      postProcessProject (some (str "new-name")) NewIdOption.absent
        (str "") demoProject :=
  ⟨(invalidIdentifier_rejected_before_writes (some (str "new-name"))
      (str "not-a-guid") (str "") demoProject).1 (by decide) (by decide),
   (invalidIdentifier_rejected_before_writes (some (str "new-name"))
      (str "93f3f2eb-32e9-4d26-85bc-6f390441be87") (str "") demoProject).2.1 (by decide),
   (invalidIdentifier_rejected_before_writes (some (str "new-name"))
      (str "") (str "") demoProject).2.2⟩

/-! ## Remote tree client: error classification -/

/-- The body of an API response, as `res.json()` yields it (`message` is
the server-provided error message, when present). -/
structure ServerJson where
  message : Option Str
  deriving DecidableEq, Repr

/-- An HTTP response as the client observes it: status, status text, the
`X-RateLimit-Remaining` header, and the JSON parse of the body (`none`
when the body is not valid JSON, in which case `res.json()` rejects). -/
structure HttpResponse where
  status : Nat
  statusText : Str
  rateLimitRemaining : Option Str
  jsonBody : Option ServerJson
  deriving DecidableEq, Repr

/-- `res.ok` of the Fetch API: status in the 200–299 range. -/
def httpOk (status : Nat) : Bool := 200 ≤ status && status < 300

/-- Decimal digit character. -/
def digitChar (n : Nat) : Char := Char.ofNat ('0'.toNat + n)

/-- Decimal rendering of a number (`${res.status}`). -/
def natToStrAux : Nat → Nat → Str → Str
  | 0, _, acc => acc
  | fuel + 1, n, acc =>
    if n < 10 then digitChar n :: acc
    else natToStrAux fuel (n / 10) (digitChar (n % 10) :: acc)

/-- Decimal rendering of a number (`${res.status}`). -/
def natToStr (n : Nat) : Str := natToStrAux (n + 1) n []

/-- The `${res.status} ${res.statusText}` fallback text. -/
def statusLine (r : HttpResponse) : Str := natToStr r.status ++ str " " ++ r.statusText

/-- Outcomes of the remote requests: `rateLimited` is the distinct 403 +
exhausted-quota error (whose message advises waiting or switching to the
git strategy), `apiError` the generic tree-lookup failure carrying the
server-provided message, `downloadError`/`fileWritten` the per-file raw
content request outcomes. -/
inductive RemoteOutcome
  | rateLimited
  | apiError (msg : Str)
  | bodyParseError
  | jsonSuccess (body : ServerJson)
  | downloadError (status : Nat) (statusText : Str)
  | fileWritten
  deriving DecidableEq, Repr

/-- `fetchJson` from the remote tree client: parse the body first
(`await res.json()`), then classify a non-ok status as the distinct
rate-limit error (403 with `X-RateLimit-Remaining: 0`) or as the generic
API error with the server message (falling back to `status statusText`). -/
def fetchJson (r : HttpResponse) : RemoteOutcome :=
  match r.jsonBody with
  | none => RemoteOutcome.bodyParseError
  | some data =>
    if httpOk r.status then RemoteOutcome.jsonSuccess data
    else if r.status = 403 ∧ r.rateLimitRemaining = some (str "0") then
      RemoteOutcome.rateLimited
    else RemoteOutcome.apiError (data.message.getD (statusLine r))

/-- The per-file raw-content request of the subtree downloader: any non-ok
response throws `HTTP ${status} ${statusText}`; headers are not
consulted. -/
def downloadFile (r : HttpResponse) : RemoteOutcome :=
  if httpOk r.status then RemoteOutcome.fileWritten
  else RemoteOutcome.downloadError r.status r.statusText

/-- C8 counterexample: a *content* request answered 403 with the
rate-limit header at "0" fails with the generic download error (carrying
the HTTP status), not with the distinct rate-limited condition, because
the raw-content path never inspects headers. -/
theorem contentRequest403_not_rateLimited :
    downloadFile ⟨403, str "Forbidden", some (str "0"), none⟩ =
      RemoteOutcome.downloadError 403 (str "Forbidden") ∧
    downloadFile ⟨403, str "Forbidden", some (str "0"), none⟩ ≠
      RemoteOutcome.rateLimited := by decide

/-- C8 amended: for *tree-lookup* (JSON API) requests whose body parses,
the distinct rate-limited failure occurs exactly on a non-ok 403 with
`X-RateLimit-Remaining: 0`; every other non-ok response yields the generic
API error carrying the server-provided message (or the status line when
absent); the two are distinguishable.  A raw *content* request instead
fails with a download error carrying the HTTP status, regardless of
rate-limit headers. -/
theorem rateLimited_distinguished (r : HttpResponse) (data : ServerJson) :
    (r.jsonBody = some data →
      (fetchJson r = RemoteOutcome.rateLimited ↔
        httpOk r.status = false ∧ r.status = 403 ∧
          r.rateLimitRemaining = some (str "0")) ∧
      (httpOk r.status = false →
        ¬(r.status = 403 ∧ r.rateLimitRemaining = some (str "0")) →
        fetchJson r = RemoteOutcome.apiError (data.message.getD (statusLine r)))) ∧
    (∀ m, RemoteOutcome.rateLimited ≠ RemoteOutcome.apiError m) ∧
    (httpOk r.status = false →
      downloadFile r = RemoteOutcome.downloadError r.status r.statusText) := by
  refine ⟨?_, fun m => by simp, fun h => by simp [downloadFile, h]⟩
  intro hb
  constructor
  · by_cases hok : httpOk r.status = true
    · simp [fetchJson, hb, hok]
    · have hok' : httpOk r.status = false := by
        cases h : httpOk r.status
        · rfl
        · exact absurd h hok
      by_cases hrl : r.status = 403 ∧ r.rateLimitRemaining = some (str "0")
      · simp [fetchJson, hb, hok', hrl]
      · simp [fetchJson, hb, hok', hrl]
  · intro hok hrl
    simp [fetchJson, hb, hok, hrl]

/-- C8 witness: the classification at a concrete rate-limited 403, a
concrete 500 with a server message, and a concrete failing content
request. -/
theorem rateLimited_distinguished_witness :
    fetchJson ⟨403, str "Forbidden", some (str "0"),
        some ⟨some (str "API rate limit exceeded")⟩⟩ =
      RemoteOutcome.rateLimited ∧
    fetchJson ⟨500, str "Internal Server Error", none, some ⟨some (str "boom")⟩⟩ =
      RemoteOutcome.apiError (str "boom") ∧
    downloadFile ⟨500, str "Internal Server Error", none, none⟩ =
      RemoteOutcome.downloadError 500 (str "Internal Server Error") :=
  ⟨((rateLimited_distinguished ⟨403, str "Forbidden", some (str "0"),
        some ⟨some (str "API rate limit exceeded")⟩⟩
      ⟨some (str "API rate limit exceeded")⟩).1 rfl).1.mpr (by decide),
   ((rateLimited_distinguished ⟨500, str "Internal Server Error", none,
        some ⟨some (str "boom")⟩⟩
      ⟨some (str "boom")⟩).1 rfl).2 (by decide) (by decide),
   (rateLimited_distinguished ⟨500, str "Internal Server Error", none, none⟩
      ⟨none⟩).2.2 (by decide)⟩

/-! ## Counting semaphore of the concurrent subtree downloader

`createSemaphore(max)` keeps a running count and a FIFO queue of pending
task starters.  The state below records the count, the queue of task ids
not yet started, the ids already started (in start order), and — as ghost
bookkeeping — every id ever scheduled, in schedule order. -/

/-- Semaphore state.  `running`/`queue` mirror the closure variables of
`createSemaphore`; `started` and `scheduled` are ghost observation lists. -/
structure SemState where
  running : Nat
  queue : List Nat
  started : List Nat
  scheduled : List Nat
  deriving DecidableEq, Repr

/-- The semaphore before any task is scheduled. -/
def semInit : SemState := ⟨0, [], [], []⟩

/-- `sem(fn)` for task `k`: if `running < max` the task starts immediately
(`running++`), else its starter is pushed onto the FIFO queue.  The width
is an arbitrary JavaScript number, so an `Int` here. -/
def schedule (max : Int) (st : SemState) (k : Nat) : SemState :=
  if (st.running : Int) < max then
    { st with running := st.running + 1, started := st.started ++ [k],
              scheduled := st.scheduled ++ [k] }
  else
    { st with queue := st.queue ++ [k], scheduled := st.scheduled ++ [k] }

/-- `next()`: decrement the count, shift the queue, and start the dequeued
task (which immediately increments the count again). -/
def release (st : SemState) : SemState :=
  match st.queue with
  | [] => { st with running := st.running - 1 }
  | k :: q =>
      { st with running := st.running - 1 + 1, queue := q,
                started := st.started ++ [k] }

/-- A task settling — fulfilled or rejected — runs `next()` in the
`finally` block: the state update is `release` in both cases. -/
def onSettle (st : SemState) (_succeeded : Bool) : SemState := release st

/-- `blobs.map(b => sem(...))`: schedule every task, in list order. -/
def scheduleAll (max : Int) (st : SemState) (ks : List Nat) : SemState :=
  ks.foldl (schedule max) st

/-- States reachable by scheduling tasks and settling in-flight tasks
(settling requires at least one task running). -/
inductive SemReach (max : Int) : SemState → Prop
  | init : SemReach max semInit
  | sched (st : SemState) (k : Nat) : SemReach max st → SemReach max (schedule max st k)
  | settle (st : SemState) (b : Bool) :
      SemReach max st → 1 ≤ st.running → SemReach max (onSettle st b)

/-- One settle of some in-flight task. -/
def settleStep (s t : SemState) : Prop := 1 ≤ s.running ∧ ∃ b, t = onSettle s b

/-- Zero or more settles. -/
abbrev SettleReach : SemState → SemState → Prop := Relation.ReflTransGen settleStep

lemma semReach_scheduleAll (max : Int) (st : SemState) (h : SemReach max st)
    (ks : List Nat) : SemReach max (scheduleAll max st ks) := by
  induction ks generalizing st with
  | nil => exact h
  | cons k ks ih => exact ih _ (SemReach.sched st k h)

lemma semReach_invariant (max : Int) (st : SemState) (h : SemReach max st) :
    st.started ++ st.queue = st.scheduled ∧
    (st.queue ≠ [] → max ≤ (st.running : Int)) := by
  induction h with
  | init => simp [semInit]
  | sched st k hr ih =>
      rcases ih with ⟨hI, hJ⟩
      by_cases hc : (st.running : Int) < max
      · have hq : st.queue = [] := by
          by_contra hne
          have := hJ hne
          omega
        rw [hq, List.append_nil] at hI
        constructor
        · simp [schedule, hc, hq, hI]
        · intro hne
          simp [schedule, hc, hq] at hne
      · constructor
        · simp only [schedule, if_neg hc]
          rw [← List.append_assoc, hI]
        · intro _
          simp only [schedule, if_neg hc]
          omega
  | settle st b hr hrun ih =>
      rcases ih with ⟨hI, hJ⟩
      rcases hq : st.queue with _ | ⟨k, q⟩
      · rw [hq, List.append_nil] at hI
        constructor
        · simp [onSettle, release, hq, hI]
        · intro hne
          simp [onSettle, release, hq] at hne
      · constructor
        · simp only [onSettle, release, hq]
          rw [hq] at hI
          simp only [← hI]
          simp
        · intro _
          have hmax := hJ (by rw [hq]; simp)
          simp only [onSettle, release, hq]
          omega

lemma semReach_drains (max : Int) (hmax : 1 ≤ max) :
    ∀ n (st : SemState), SemReach max st → st.queue.length + st.running = n →
      ∃ st', SettleReach st st' ∧ st'.started = st.scheduled ∧
        st'.queue = [] ∧ st'.running = 0 := by
  intro n
  induction n using Nat.strong_induction_on with
  | _ n ih =>
    intro st hr hn
    by_cases hrun : 1 ≤ st.running
    · have hr' : SemReach max (onSettle st true) := SemReach.settle st true hr hrun
      have hstep : settleStep st (onSettle st true) := ⟨hrun, true, rfl⟩
      have hlt : (onSettle st true).queue.length + (onSettle st true).running < n := by
        rw [← hn]
        rcases hq : st.queue with _ | ⟨k, q⟩ <;>
          simp [onSettle, release, hq] <;> omega
      have hsched : (onSettle st true).scheduled = st.scheduled := by
        rcases hq : st.queue with _ | ⟨k, q⟩ <;> simp [onSettle, release, hq]
      obtain ⟨st', hs, hst, hq', hrn⟩ := ih _ hlt (onSettle st true) hr' rfl
      exact ⟨st', Relation.ReflTransGen.head hstep hs, by rw [hst, hsched], hq', hrn⟩
    · have hrun0 : st.running = 0 := by omega
      have hinv := semReach_invariant max st hr
      have hq : st.queue = [] := by
        by_contra hne
        have := hinv.2 hne
        rw [hrun0] at this
        omega
      refine ⟨st, Relation.ReflTransGen.refl, ?_, hq, hrun0⟩
      have := hinv.1
      rw [hq, List.append_nil] at this
      exact this

/-- C10: a width below 1 enqueues every scheduled task and never starts
any (so a non-empty download never completes), while with width at least 1
the started tasks are always a schedule-order (FIFO) prefix, a non-empty
queue always has an in-flight task able to free a slot, and settling
in-flight tasks eventually starts every scheduled task and quiesces; a
settling task releases its slot whether it succeeded or failed. -/
theorem semaphore_width_termination (max : Int) :
    (max < 1 → ∀ st, SemReach max st →
      st.started = [] ∧ st.running = 0 ∧ st.queue = st.scheduled ∧
        (st.scheduled ≠ [] → st.queue ≠ [])) ∧
    (1 ≤ max → ∀ st, SemReach max st →
      st.started ++ st.queue = st.scheduled ∧
      (st.queue ≠ [] → 1 ≤ st.running) ∧
      (∃ st', SettleReach st st' ∧ st'.started = st.scheduled ∧
        st'.queue = [] ∧ st'.running = 0)) ∧
    (∀ st b, onSettle st b = release st) := by
  refine ⟨?_, ?_, fun st b => rfl⟩
  · intro hmax st h
    have hbase : st.started = [] ∧ st.running = 0 := by
      induction h with
      | init => exact ⟨rfl, rfl⟩
      | sched st k hr ih =>
          have hc : ¬ (st.running : Int) < max := by omega
          simp only [schedule, if_neg hc]
          exact ih
      | settle st b hr hrun ih => omega
    have hinv := (semReach_invariant max st h).1
    rw [hbase.1, List.nil_append] at hinv
    exact ⟨hbase.1, hbase.2, hinv, fun hs => by rw [hinv]; exact hs⟩
  · intro hmax st h
    have hinv := semReach_invariant max st h
    refine ⟨hinv.1, fun hne => ?_, semReach_drains max hmax _ st h rfl⟩
    have := hinv.2 hne
    omega

/-- C10 witness: three tasks scheduled through a width-0 semaphore are all
enqueued and none started; through a width-8 semaphore they all start and
the system drains. -/
theorem semaphore_width_termination_witness :
    ((scheduleAll 0 semInit [0, 1, 2]).started = [] ∧
      (scheduleAll 0 semInit [0, 1, 2]).queue = (scheduleAll 0 semInit [0, 1, 2]).scheduled) ∧
    (∃ st', SettleReach (scheduleAll 8 semInit [0, 1, 2]) st' ∧
      st'.started = (scheduleAll 8 semInit [0, 1, 2]).scheduled ∧
      st'.queue = [] ∧ st'.running = 0) := by
  have h0 : SemReach 0 (scheduleAll 0 semInit [0, 1, 2]) :=
    semReach_scheduleAll 0 semInit SemReach.init [0, 1, 2]
  have h8 : SemReach 8 (scheduleAll 8 semInit [0, 1, 2]) :=
    semReach_scheduleAll 8 semInit SemReach.init [0, 1, 2]
  refine ⟨⟨?_, ?_⟩, ?_⟩
  · exact ((semaphore_width_termination 0).1 (by decide) _ h0).1
  · exact ((semaphore_width_termination 0).1 (by decide) _ h0).2.2.1
  · exact ((semaphore_width_termination 8).2.1 (by decide) _ h8).2.2

end SpfxSample

